import Mathlib

/-!
Shallow embedding of the CHIP-8 emulator core (src/chip8/mod.rs of
maslabgamer/chip8-emulator) together with theorems settling the frozen
claims about its specification.

Modelling conventions:
* Rust arrays (`[u8; 4096]`, `[u8; 16]`, `[u16; 16]`, `[u8; 64*32]`) are
  modelled as total functions `Nat → Nat`; every in-bounds cell access of
  the source corresponds to applying the function, and each array store is
  a pointwise functional update.  Indexing a Rust array out of bounds
  panics; the embedding returns a `Fault.nativePanic` result at exactly the
  access the source would panic on, carrying the machine state as mutated
  up to that point (this is the state observable through
  `std::panic::catch_unwind`).
* `u8`/`u16` cells hold naturals; the source writes them either through
  `std::num::Wrapping` arithmetic, which is embedded as explicit `% 256`
  (or `% 65536`) at the corresponding write site, or through plain
  (debug-checked) arithmetic, embedded as plain `Nat` arithmetic with a
  `nativePanic` guard where the source could underflow.
* Bit extraction such as `(opcode & 0xF000) >> 12` is written in the
  arithmetically equal division/modulus form `opcode / 4096 % 16`, which
  agrees with the source for every natural number input.
* The `0xCXNN` instruction samples `rand::thread_rng().gen::<u8>()`; the
  sampled byte is passed to `emulate_cycle` as an explicit argument `rnd`
  (taken modulo 256), making the nondeterminism an input of the embedding.
-/

namespace Chip8Emu

/-- Pointwise update of a function used to model a Rust array store. -/
def upd (f : Nat → Nat) (a v : Nat) : Nat → Nat :=
  fun j => if j = a then v else f j

/-- The machine state: the fields of `struct Chip8` in src/chip8/mod.rs. -/
structure Chip8 where
  memory : Nat → Nat
  cpu_registers : Nat → Nat
  index_register : Nat
  program_counter : Nat
  gfx : Nat → Nat
  delay_timer : Nat
  sound_timer : Nat
  stack : Nat → Nat
  stack_pointer : Nat
  keys : Nat → Nat
  draw_flag : Bool

/-- A Rust panic raised while executing the core: either the explicit
`panic!("Unknown opcode: {:#X}", v)` (carrying the value `v` that the
source interpolates into the message) or a native panic (array index out
of bounds, or checked-arithmetic underflow under debug semantics). -/
inductive Fault where
  | unknownOpcode (val : Nat)
  | nativePanic
deriving DecidableEq

/-- Result of a fallible operation: an optional fault (`none` means normal
return) together with the machine state as observable afterwards — the
final state on success, or the partially mutated state at the panic
point. -/
abbrev CycleResult := Option Fault × Chip8

/-- The built-in glyph table `CHIP8_FONTSET`. -/
def chip8_fontset : List Nat :=
  [0xF0, 0x90, 0x90, 0x90, 0xF0,
   0x20, 0x60, 0x20, 0x20, 0x70,
   0xF0, 0x10, 0xF0, 0x80, 0xF0,
   0xF0, 0x10, 0xF0, 0x10, 0xF0,
   0x90, 0x90, 0xF0, 0x10, 0x10,
   0xF0, 0x80, 0xF0, 0x10, 0xF0,
   0xF0, 0x80, 0xF0, 0x90, 0xF0,
   0xF0, 0x10, 0x20, 0x40, 0x40,
   0xF0, 0x90, 0xF0, 0x90, 0xF0,
   0xF0, 0x90, 0xF0, 0x10, 0xF0,
   0xF0, 0x90, 0xF0, 0x90, 0x90,
   0xE0, 0x90, 0xE0, 0x90, 0xE0,
   0xF0, 0x80, 0x80, 0x80, 0xF0,
   0xE0, 0x90, 0x90, 0x90, 0xE0,
   0xF0, 0x80, 0xF0, 0x80, 0xF0,
   0xF0, 0x80, 0xF0, 0x80, 0x80]

/-- `Chip8::new()`: zeroed state, fontset in low memory, PC = 0x200. -/
def Chip8.new : Chip8 where
  memory := fun i => if i < 80 then chip8_fontset.getD i 0 else 0
  cpu_registers := fun _ => 0
  index_register := 0
  program_counter := 0x200
  gfx := fun _ => 0
  delay_timer := 0
  sound_timer := 0
  stack := fun _ => 0
  stack_pointer := 0
  keys := fun _ => 0
  draw_flag := false

/-- `0x00E0`: clear the screen. -/
def clear_screen (s : Chip8) : Chip8 :=
  { s with gfx := fun _ => 0, draw_flag := true,
           program_counter := s.program_counter + 2 }

/-- `0x00EE`: return from subroutine.  The source first reads
`stack[stack_pointer]` (out of bounds if the pointer is ≥ 16) and sets the
program counter, then decrements the pointer (u16 underflow panics in
debug builds when it is already 0). -/
def return_from_subroutine (s : Chip8) : CycleResult :=
  if s.stack_pointer < 16 then
    let s1 := { s with program_counter := s.stack s.stack_pointer + 2 }
    if s.stack_pointer > 0 then
      (none, { s1 with stack_pointer := s.stack_pointer - 1 })
    else (some Fault.nativePanic, s1)
  else (some Fault.nativePanic, s)

/-- `0x1NNN`: jump to NNN. -/
def process_1_command (s : Chip8) (nnn : Nat) : Chip8 :=
  { s with program_counter := nnn }

/-- `0x2NNN`: call subroutine at NNN.  The source increments the stack
pointer first and then stores; the store is out of bounds when the
incremented pointer is ≥ 16. -/
def process_2_command (s : Chip8) (nnn : Nat) : CycleResult :=
  let sp := s.stack_pointer + 1
  if sp < 16 then
    (none, { s with stack_pointer := sp,
                    stack := upd s.stack sp s.program_counter,
                    program_counter := nnn })
  else (some Fault.nativePanic, { s with stack_pointer := sp })

/-- `0x3XNN`: skip next instruction if VX = NN. -/
def process_3_command (s : Chip8) (v_x nn : Nat) : Chip8 :=
  { s with program_counter :=
      s.program_counter + if s.cpu_registers v_x = nn then 4 else 2 }

/-- `0x4XNN`: skip next instruction if VX ≠ NN. -/
def process_4_command (s : Chip8) (v_x nn : Nat) : Chip8 :=
  { s with program_counter :=
      s.program_counter + if s.cpu_registers v_x ≠ nn then 4 else 2 }

/-- `0x5XY0`: skip next instruction if VX = VY. -/
def process_5_command (s : Chip8) (v_x v_y : Nat) : Chip8 :=
  { s with program_counter :=
      s.program_counter + if s.cpu_registers v_x = s.cpu_registers v_y then 4 else 2 }

/-- `0x6XNN`: VX := NN. -/
def process_6_command (s : Chip8) (v_x nn : Nat) : Chip8 :=
  { s with cpu_registers := upd s.cpu_registers v_x nn,
           program_counter := s.program_counter + 2 }

/-- `0x7XNN`: VX += NN (wrapping). -/
def process_7_command (s : Chip8) (v_x nn : Nat) : Chip8 :=
  { s with cpu_registers := upd s.cpu_registers v_x ((s.cpu_registers v_x + nn) % 256),
           program_counter := s.program_counter + 2 }

/-- `0x8XYN` family.  `operator` is `opcode & 0x000F`.  Note that the VF
flag write happens before the arithmetic write, exactly as in the source,
so the arithmetic reads the already-updated register file.  The unknown
arm panics with the operator nibble (the source interpolates `operator`,
not the full opcode, into the message). -/
def process_8_command (s : Chip8) (operator v_x v_y : Nat) : CycleResult :=
  let regs := s.cpu_registers
  match operator with
  | 0x0 =>
    (none, { s with cpu_registers := upd regs v_x (regs v_y),
                    program_counter := s.program_counter + 2 })
  | 0x1 =>
    (none, { s with cpu_registers := upd regs v_x (regs v_x ||| regs v_y),
                    program_counter := s.program_counter + 2 })
  | 0x2 =>
    (none, { s with cpu_registers := upd regs v_x (regs v_x &&& regs v_y),
                    program_counter := s.program_counter + 2 })
  | 0x3 =>
    (none, { s with cpu_registers := upd regs v_x (regs v_x ^^^ regs v_y),
                    program_counter := s.program_counter + 2 })
  | 0x4 =>
    let regs1 := upd regs 15 (if regs v_x > 0xFF - regs v_y then 1 else 0)
    (none, { s with cpu_registers := upd regs1 v_x ((regs1 v_x + regs1 v_y) % 256),
                    program_counter := s.program_counter + 2 })
  | 0x5 =>
    let regs1 := upd regs 15 (if regs v_y > regs v_x then 0 else 1)
    let regs2 := upd regs1 v_x ((regs1 v_x + 256 - regs1 v_y % 256) % 256)
    (none, { s with cpu_registers := regs2,
                    program_counter := s.program_counter + 2 })
  | 0x6 =>
    let regs1 := upd regs 15 (regs v_x &&& 1)
    (none, { s with cpu_registers := upd regs1 v_x (regs1 v_x >>> 1),
                    program_counter := s.program_counter + 2 })
  | 0x7 =>
    let regs1 := upd regs 15 (if regs v_x > regs v_y then 0 else 1)
    let regs2 := upd regs1 v_x ((regs1 v_y + 256 - regs1 v_x % 256) % 256)
    (none, { s with cpu_registers := regs2,
                    program_counter := s.program_counter + 2 })
  | 0xE =>
    let regs1 := upd regs 15 ((regs v_x &&& 128) >>> 7)
    (none, { s with cpu_registers := upd regs1 v_x (regs1 v_x * 2 % 256),
                    program_counter := s.program_counter + 2 })
  | _ => (some (Fault.unknownOpcode operator), s)

/-- `0x9XY0`: skip next instruction if VX ≠ VY. -/
def process_9_command (s : Chip8) (v_x v_y : Nat) : Chip8 :=
  { s with program_counter :=
      s.program_counter + if s.cpu_registers v_x ≠ s.cpu_registers v_y then 4 else 2 }

/-- `0xANNN`: I := NNN. -/
def process_a_command (s : Chip8) (nnn : Nat) : Chip8 :=
  { s with index_register := nnn,
           program_counter := s.program_counter + 2 }

/-- `0xBNNN`: PC := NNN + V0. -/
def process_b_command (s : Chip8) (nnn : Nat) : Chip8 :=
  { s with program_counter := nnn + s.cpu_registers 0 }

/-- `0xCXNN`: VX := random byte AND NN.  `rnd` is the byte sampled from
`thread_rng`. -/
def process_c_command (s : Chip8) (v_x nn rnd : Nat) : Chip8 :=
  { s with cpu_registers := upd s.cpu_registers v_x (rnd % 256 &&& nn),
           program_counter := s.program_counter + 2 }

/-- `0xEX9E`: skip if the key indexed by VX is pressed.  The key array has
16 cells, so a VX ≥ 16 is an out-of-bounds read. -/
def process_ex9e_command (s : Chip8) (v_x : Nat) : CycleResult :=
  let key_idx := s.cpu_registers v_x
  if key_idx < 16 then
    (none, { s with program_counter :=
        s.program_counter + if s.keys key_idx = 1 then 4 else 2 })
  else (some Fault.nativePanic, s)

/-- `0xEXA1`: skip if the key indexed by VX is not pressed. -/
def process_exa1_command (s : Chip8) (v_x : Nat) : CycleResult :=
  let key_idx := s.cpu_registers v_x
  if key_idx < 16 then
    (none, { s with program_counter :=
        s.program_counter + if s.keys key_idx ≠ 1 then 4 else 2 })
  else (some Fault.nativePanic, s)

/-- One XOR-blit of a single sprite pixel onto the display at cell `idx`:
records a collision in the accumulator (the VF value) if the cell was 1,
then toggles the cell.  `gv` is the pair (gfx buffer, VF accumulator). -/
def drawPixel (gv : (Nat → Nat) × Nat) (idx : Nat) : (Nat → Nat) × Nat :=
  (upd gv.1 idx (gv.1 idx ^^^ 1), if gv.1 idx = 1 then 1 else gv.2)

/-- The inner `for x_line in 0..8` loop of the `0xDXYN` arm: one sprite
row byte `pixel`, blitted at the linear index
`(x + x_line + (y + y_line) * 64) % 2048` for each set bit. -/
def draw_row (pixel x y y_line : Nat) (gv : (Nat → Nat) × Nat) : (Nat → Nat) × Nat :=
  (List.range 8).foldl
    (fun gv x_line =>
      if pixel &&& (0x80 >>> x_line) ≠ 0 then
        drawPixel gv ((x + x_line + (y + y_line) * 64) % 2048)
      else gv) gv

/-- The outer `for y_line in 0..height` loop of the `0xDXYN` arm.  Each
iteration first reads the sprite byte `memory[I + y_line]` (out of bounds
when `I + y_line ≥ 4096`, yielding the partially drawn state), then blits
the row. -/
def draw_rows (mem : Nat → Nat) (i x y : Nat) (rows : List Nat)
    (gv : (Nat → Nat) × Nat) : Option Fault × ((Nat → Nat) × Nat) :=
  match rows with
  | [] => (none, gv)
  | y_line :: rest =>
    if i + y_line < 4096 then
      draw_rows mem i x y rest (draw_row (mem (i + y_line)) x y y_line gv)
    else (some Fault.nativePanic, gv)

/-- The `0xDXYN` arm of `emulate_cycle`: fetch x and y from the register
file, reset VF, run the blit loop, then set the draw flag and advance the
program counter (the latter two only when no panic occurred). -/
def draw_sprite (s : Chip8) (v_x v_y height : Nat) : CycleResult :=
  let x := s.cpu_registers v_x
  let y := s.cpu_registers v_y
  let res := draw_rows s.memory s.index_register x y (List.range height) (s.gfx, 0)
  let s1 := { s with gfx := res.2.1, cpu_registers := upd s.cpu_registers 15 res.2.2 }
  match res.1 with
  | none => (none, { s1 with draw_flag := true,
                             program_counter := s.program_counter + 2 })
  | some f => (some f, s1)

/-- The `for i in 0..v_x + 1` loop of `0xFX55`: store V0..VX into memory
at I.  Stores past 4095 are out of bounds; earlier stores persist. -/
def store_regs_loop (regs : Nat → Nat) (base : Nat) (is : List Nat)
    (mem : Nat → Nat) : Option Fault × (Nat → Nat) :=
  match is with
  | [] => (none, mem)
  | i :: rest =>
    if base + i < 4096 then
      store_regs_loop regs base rest (upd mem (base + i) (regs i))
    else (some Fault.nativePanic, mem)

/-- The `for i in 0..v_x + 1` loop of `0xFX65`: fill V0..VX from memory at
I.  Reads past 4095 are out of bounds; earlier register writes persist. -/
def load_regs_loop (mem : Nat → Nat) (base : Nat) (is : List Nat)
    (regs : Nat → Nat) : Option Fault × (Nat → Nat) :=
  match is with
  | [] => (none, regs)
  | i :: rest =>
    if base + i < 4096 then
      load_regs_loop mem base rest (upd regs i (mem (base + i)))
    else (some Fault.nativePanic, regs)

/-- The `0xFXNN` family, dispatched on the low byte (the source matches
`opcode & 0xF0FF`, which given a high nibble of 0xF is determined by the
low byte). -/
def process_f_command (s : Chip8) (opcode v_x nn : Nat) : CycleResult :=
  match nn with
  | 0x07 =>
    (none, { s with cpu_registers := upd s.cpu_registers v_x s.delay_timer,
                    program_counter := s.program_counter + 2 })
  | 0x15 =>
    (none, { s with delay_timer := s.cpu_registers v_x,
                    program_counter := s.program_counter + 2 })
  | 0x18 =>
    (none, { s with sound_timer := s.cpu_registers v_x,
                    program_counter := s.program_counter + 2 })
  | 0x1E =>
    (none, { s with index_register := (s.index_register + s.cpu_registers v_x) % 65536,
                    program_counter := s.program_counter + 2 })
  | 0x29 =>
    (none, { s with index_register := s.cpu_registers v_x * 5 % 65536,
                    program_counter := s.program_counter + 2 })
  | 0x33 =>
    let i := s.index_register
    if i < 4096 then
      let m1 := upd s.memory i (s.cpu_registers v_x / 100)
      if i + 1 < 4096 then
        let m2 := upd m1 (i + 1) (s.cpu_registers v_x / 10 % 10)
        if i + 2 < 4096 then
          (none, { s with memory := upd m2 (i + 2) (s.cpu_registers v_x % 100 % 10),
                          program_counter := s.program_counter + 2 })
        else (some Fault.nativePanic, { s with memory := m2 })
      else (some Fault.nativePanic, { s with memory := m1 })
    else (some Fault.nativePanic, s)
  | 0x55 =>
    let r := store_regs_loop s.cpu_registers s.index_register
      (List.range (v_x + 1)) s.memory
    match r.1 with
    | none => (none, { s with memory := r.2,
                              program_counter := s.program_counter + 2 })
    | some f => (some f, { s with memory := r.2 })
  | 0x65 =>
    let r := load_regs_loop s.memory s.index_register
      (List.range (v_x + 1)) s.cpu_registers
    match r.1 with
    | none => (none, { s with cpu_registers := r.2,
                              program_counter := s.program_counter + 2 })
    | some f => (some f, { s with cpu_registers := r.2 })
  | _ => (some (Fault.unknownOpcode opcode), s)

/-- The timer update at the end of every successful `emulate_cycle`:
each timer is decremented when positive (the sound timer additionally
prints BEEP on its 1 → 0 transition, a pure side effect not modelled). -/
def update_timers (s : Chip8) : Chip8 :=
  let s1 := if s.delay_timer > 0 then { s with delay_timer := s.delay_timer - 1 } else s
  if s1.sound_timer > 0 then { s1 with sound_timer := s1.sound_timer - 1 } else s1

/-- The decode-and-dispatch `match command_bit` block of
`Chip8::emulate_cycle`: extract the operand fields of the fetched opcode
and route to the instruction arm (with sub-dispatch inside the
0x0/0x5/0x8/0x9/0xE/0xF families; a pattern with no arm panics with the
unknown-opcode message).  `rnd` is the byte `0xCXNN` would sample from
`thread_rng`. -/
def dispatch (rnd : Nat) (s : Chip8) (opcode : Nat) : CycleResult :=
  let v_x := opcode / 256 % 16
  let v_y := opcode / 16 % 16
  let nn := opcode % 256
  let nnn := opcode % 4096
  match opcode / 4096 % 16 with
  | 0x0 =>
    match opcode with
    | 0x00E0 => (none, clear_screen s)
    | 0x00EE => return_from_subroutine s
    | _ => (some (Fault.unknownOpcode opcode), s)
  | 0x1 => (none, process_1_command s nnn)
  | 0x2 => process_2_command s nnn
  | 0x3 => (none, process_3_command s v_x nn)
  | 0x4 => (none, process_4_command s v_x nn)
  | 0x5 =>
    match opcode % 16 with
    | 0x0 => (none, process_5_command s v_x v_y)
    | _ => (some (Fault.unknownOpcode opcode), s)
  | 0x6 => (none, process_6_command s v_x nn)
  | 0x7 => (none, process_7_command s v_x nn)
  | 0x8 => process_8_command s (opcode % 16) v_x v_y
  | 0x9 =>
    match opcode % 16 with
    | 0x0 => (none, process_9_command s v_x v_y)
    | _ => (some (Fault.unknownOpcode opcode), s)
  | 0xA => (none, process_a_command s nnn)
  | 0xB => (none, process_b_command s nnn)
  | 0xC => (none, process_c_command s v_x nn rnd)
  | 0xD => draw_sprite s v_x v_y (opcode % 16)
  | 0xE =>
    match nn with
    | 0x9E => process_ex9e_command s v_x
    | 0xA1 => process_exa1_command s v_x
    | _ => (some (Fault.unknownOpcode opcode), s)
  | 0xF => process_f_command s opcode v_x nn
  | _ => (some (Fault.unknownOpcode opcode), s)

/-- `Chip8::emulate_cycle`: fetch the big-endian opcode at PC (out of
bounds when PC + 1 ≥ 4096), decode and dispatch it, then update the two
timers — the timer update runs only when the instruction did not panic. -/
def emulate_cycle (rnd : Nat) (s : Chip8) : CycleResult :=
  if s.program_counter + 1 < 4096 then
    match dispatch rnd s
        (s.memory s.program_counter * 256 + s.memory (s.program_counter + 1)) with
    | (none, s1) => (none, update_timers s1)
    | f => f
  else (some Fault.nativePanic, s)

/-- The copy loop of `Chip8::load_program`: `memory[i + 512] = buffer[i]`
for each i in order; the first store at index ≥ 4096 is out of bounds,
with all earlier stores persisting. -/
def load_program_loop (buf : List Nat) (i : Nat) (mem : Nat → Nat) :
    Option Fault × (Nat → Nat) :=
  match buf with
  | [] => (none, mem)
  | b :: rest =>
    if i + 512 < 4096 then load_program_loop rest (i + 1) (upd mem (i + 512) b)
    else (some Fault.nativePanic, mem)

/-- `Chip8::load_program`: copy the program image into memory at 0x200. -/
def load_program (s : Chip8) (program_buffer : List Nat) : CycleResult :=
  let r := load_program_loop program_buffer 0 s.memory
  (r.1, { s with memory := r.2 })

/-- Whether a fetched 16-bit word matches some arm of the dispatch in
`emulate_cycle` other than the `panic!("Unknown opcode ...")` arms.  This
mirrors the match structure of the source exactly. -/
def recognized_op (opcode : Nat) : Bool :=
  match opcode / 4096 % 16 with
  | 0x0 =>
    match opcode with
    | 0x00E0 => true
    | 0x00EE => true
    | _ => false
  | 0x1 => true
  | 0x2 => true
  | 0x3 => true
  | 0x4 => true
  | 0x5 =>
    match opcode % 16 with
    | 0x0 => true
    | _ => false
  | 0x6 => true
  | 0x7 => true
  | 0x8 =>
    match opcode % 16 with
    | 0x0 => true | 0x1 => true | 0x2 => true | 0x3 => true | 0x4 => true
    | 0x5 => true | 0x6 => true | 0x7 => true | 0xE => true
    | _ => false
  | 0x9 =>
    match opcode % 16 with
    | 0x0 => true
    | _ => false
  | 0xA => true
  | 0xB => true
  | 0xC => true
  | 0xD => true
  | 0xE =>
    match opcode % 256 with
    | 0x9E => true
    | 0xA1 => true
    | _ => false
  | 0xF =>
    match opcode % 256 with
    | 0x07 => true | 0x15 => true | 0x18 => true | 0x1E => true
    | 0x29 => true | 0x33 => true | 0x55 => true | 0x65 => true
    | _ => false
  | _ => false

/-- The value the source interpolates into the unknown-opcode panic
message: the full opcode everywhere except the `0x8XYN` family, whose
panic arm prints only the operator nibble `opcode & 0x000F`. -/
def unknown_payload (opcode : Nat) : Nat :=
  if opcode / 4096 % 16 = 8 then opcode % 16 else opcode

/-- Modelled from the spec (§4.2 draw): the target display cell for the
sprite bit at column `c` of row `r`, drawn at position (x, y), with the
mandated independent per-axis wraparound
`(VX + column) mod 64 + ((VY + row) mod 32) * 64`.  This definition is for
comparison against the linear-modulo index the code computes. -/
def draw_index_spec (x y c r : Nat) : Nat :=
  (x + c) % 64 + (y + r) % 32 * 64

/-! ## Basic lemmas about the embedding -/

theorem upd_apply (f : Nat → Nat) (a v j : Nat) :
    upd f a v j = if j = a then v else f j := rfl

theorem upd_same (f : Nat → Nat) (a v : Nat) : upd f a v a = v := by
  simp [upd]

theorem upd_other (f : Nat → Nat) (a v j : Nat) (h : j ≠ a) : upd f a v j = f j := by
  simp [upd, h]

theorem update_timers_memory (s : Chip8) : (update_timers s).memory = s.memory := by
  simp only [update_timers]; split <;> split <;> rfl

theorem update_timers_regs (s : Chip8) :
    (update_timers s).cpu_registers = s.cpu_registers := by
  simp only [update_timers]; split <;> split <;> rfl

theorem update_timers_index (s : Chip8) :
    (update_timers s).index_register = s.index_register := by
  simp only [update_timers]; split <;> split <;> rfl

theorem update_timers_pc (s : Chip8) :
    (update_timers s).program_counter = s.program_counter := by
  simp only [update_timers]; split <;> split <;> rfl

theorem update_timers_gfx (s : Chip8) : (update_timers s).gfx = s.gfx := by
  simp only [update_timers]; split <;> split <;> rfl

theorem update_timers_stack (s : Chip8) : (update_timers s).stack = s.stack := by
  simp only [update_timers]; split <;> split <;> rfl

theorem update_timers_sp (s : Chip8) :
    (update_timers s).stack_pointer = s.stack_pointer := by
  simp only [update_timers]; split <;> split <;> rfl

theorem update_timers_keys (s : Chip8) : (update_timers s).keys = s.keys := by
  simp only [update_timers]; split <;> split <;> rfl

theorem update_timers_draw_flag (s : Chip8) :
    (update_timers s).draw_flag = s.draw_flag := by
  simp only [update_timers]; split <;> split <;> rfl

/-- Unfolding of `emulate_cycle` through a successful in-bounds fetch:
when PC + 1 is in range and the two bytes at PC assemble to `op`, the
cycle is the dispatch of `op`, followed by the timer update if the
instruction returned normally. -/
theorem emulate_cycle_fetch (rnd : Nat) (s : Chip8) (op : Nat)
    (hpc : s.program_counter + 1 < 4096)
    (hop : s.memory s.program_counter * 256 + s.memory (s.program_counter + 1) = op) :
    emulate_cycle rnd s =
      match dispatch rnd s op with
      | (none, s1) => (none, update_timers s1)
      | f => f := by
  rw [emulate_cycle, if_pos hpc, hop]

/-- Specialisation of `emulate_cycle_fetch` to a normally returning
dispatch. -/
theorem emulate_cycle_fetch_ok (rnd : Nat) (s : Chip8) (op : Nat) (s1 : Chip8)
    (hpc : s.program_counter + 1 < 4096)
    (hop : s.memory s.program_counter * 256 + s.memory (s.program_counter + 1) = op)
    (hd : dispatch rnd s op = (none, s1)) :
    emulate_cycle rnd s = (none, update_timers s1) := by
  rw [emulate_cycle_fetch rnd s op hpc hop, hd]

/-- Specialisation of `emulate_cycle_fetch` to a faulting dispatch: the
fault and its carried state propagate unchanged (no timer update). -/
theorem emulate_cycle_fetch_fault (rnd : Nat) (s : Chip8) (op : Nat)
    (f : Fault) (s1 : Chip8)
    (hpc : s.program_counter + 1 < 4096)
    (hop : s.memory s.program_counter * 256 + s.memory (s.program_counter + 1) = op)
    (hd : dispatch rnd s op = (some f, s1)) :
    emulate_cycle rnd s = (some f, s1) := by
  rw [emulate_cycle_fetch rnd s op hpc hop, hd]

/-- Case principle for one cycle: a property of the result of
`emulate_cycle` follows from the three possible shapes — fetch out of
bounds, dispatch returning normally (then the timers tick), or dispatch
faulting (result propagated as is). -/
theorem emulate_cycle_cases (rnd : Nat) (s : Chip8) (P : CycleResult → Prop)
    (hoob : P (some Fault.nativePanic, s))
    (hok : ∀ s1,
      dispatch rnd s (s.memory s.program_counter * 256 +
        s.memory (s.program_counter + 1)) = (none, s1) →
      P (none, update_timers s1))
    (hfault : ∀ f s1,
      dispatch rnd s (s.memory s.program_counter * 256 +
        s.memory (s.program_counter + 1)) = (some f, s1) →
      P (some f, s1)) :
    P (emulate_cycle rnd s) := by
  rw [emulate_cycle]
  split
  · rcases hd : dispatch rnd s (s.memory s.program_counter * 256 +
        s.memory (s.program_counter + 1)) with ⟨f, s1⟩
    cases f with
    | none => exact hok s1 hd
    | some f => exact hfault f s1 hd
  · exact hoob

/-! ## C1: timer cadence -/

/-- A machine looping on the jump-to-self instruction `0x1200` at 0x200,
with both timers set to 2: the C1 failing input. -/
def c1_state : Chip8 :=
  { Chip8.new with
      delay_timer := 2,
      sound_timer := 2,
      memory := fun a => if a = 0x200 then 0x12 else if a = 0x201 then 0x00 else 0 }

/-- C1: the claim requires the delay and sound timers to be decremented
only when a 1/60-second wall-clock interval has elapsed, so that 1000
`step()` calls within less than 1/60 s decrement an active timer by at
most 1.  The code has no clock at all: `emulate_cycle` unconditionally
decrements each positive timer once per call, so two consecutive calls
(taking arbitrarily little wall time) take both timers from 2 to 0 —
one decrement per call, not per elapsed 1/60-second interval. -/
theorem C1_timers_decrement_once_per_cycle :
    c1_state.delay_timer = 2 ∧ c1_state.sound_timer = 2 ∧
    (emulate_cycle 0 c1_state).1 = none ∧
    (emulate_cycle 0 c1_state).2.delay_timer = 1 ∧
    (emulate_cycle 0 (emulate_cycle 0 c1_state).2).1 = none ∧
    (emulate_cycle 0 (emulate_cycle 0 c1_state).2).2.delay_timer = 0 ∧
    (emulate_cycle 0 (emulate_cycle 0 c1_state).2).2.sound_timer = 0 := by
  decide

/-! ## C2: sprite wraparound -/

/-- Draw state for C2: V0 = 63 (x), V1 = 0 (y), I = 0x300, sprite byte
0x40 (a single set bit at column 1), opcode 0xD011 at the program
counter, display all off. -/
def c2_state : Chip8 :=
  { Chip8.new with
      cpu_registers := fun i => if i = 0 then 63 else 0,
      index_register := 0x300,
      memory := fun a =>
        if a = 0x200 then 0xD0 else if a = 0x201 then 0x11
        else if a = 0x300 then 0x40 else 0 }

/-- C2: the claim (and spec §4.2) mandates independent per-axis
wraparound, targeting cell `(VX + c) mod 64 + ((VY + r) mod 32) * 64`.
The code instead computes a single linear modulo over the whole buffer:
drawing the sprite bit at column 1 from x = 63, y = 0 toggles cell 64
(row 1, column 0) — the x overflow spills into the next row — while the
spec formula targets cell 0 (row 0, column 0), which stays off. -/
theorem C2_draw_wraps_by_linear_modulo :
    (emulate_cycle 0 c2_state).1 = none ∧
    (emulate_cycle 0 c2_state).2.gfx 64 = 1 ∧
    draw_index_spec 63 0 1 0 = 0 ∧
    (emulate_cycle 0 c2_state).2.gfx (draw_index_spec 63 0 1 0) = 0 := by
  decide

/-! ## C5: subtract with borrow flag (0x8XY5) -/

/-- C5 (amended): for register indices x and y other than 0xF (the flag
register itself), executing `0x8XY5` sets VF to 1 exactly when the
pre-instruction VX ≥ VY (no borrow) and to 0 otherwise, and sets VX to
the wrapped difference VX - VY (mod 256).  The source writes the borrow
flag into VF before subtracting, so when x or y is 0xF the subtraction
reads the freshly written flag and the claim fails (see the
counterexample). -/
theorem C5_sub_sets_borrow_flag_and_wrapped_diff (s : Chip8) (x y : Nat)
    (hx : x ≠ 15) (hy : y ≠ 15)
    (hbx : s.cpu_registers x ≤ 255) (hby : s.cpu_registers y ≤ 255) :
    (process_8_command s 5 x y).1 = none ∧
    (process_8_command s 5 x y).2.cpu_registers 15 =
      (if s.cpu_registers y ≤ s.cpu_registers x then 1 else 0) ∧
    (process_8_command s 5 x y).2.cpu_registers x =
      (s.cpu_registers x + 256 - s.cpu_registers y) % 256 := by
  have h1 : (15 : Nat) ≠ x := fun h => hx h.symm
  refine ⟨by norm_num [process_8_command], ?_, ?_⟩
  · simp only [process_8_command]
    norm_num [upd_apply, h1, hx, hy]
    split_ifs <;> omega
  · simp only [process_8_command]
    norm_num [upd_apply, h1, hx, hy]
    rw [Nat.mod_eq_of_lt (by omega : s.cpu_registers y < 256)]

/-- Register file for the C5 counterexample: V0 = 5, VF = 3. -/
def c5_state : Chip8 :=
  { Chip8.new with
      cpu_registers := fun i => if i = 0 then 5 else if i = 15 then 3 else 0 }

/-- C5 counterexample: with x = 0 and y = 0xF (V0 = 5, VF = 3), the claim
demands V0 := (5 - 3) mod 256 = 2, but the code first stores the
no-borrow flag 1 into VF and then subtracts the updated VF, leaving
V0 = 4. -/
theorem C5_counterexample :
    (process_8_command c5_state 5 0 15).2.cpu_registers 0 = 4 ∧
    (process_8_command c5_state 5 0 15).2.cpu_registers 0 ≠
      (c5_state.cpu_registers 0 + 256 - c5_state.cpu_registers 15) % 256 := by
  decide

/-- Register file for the C5 witness: V0 = 1, V1 = 1 (spec §8 example). -/
def c5_witness_state : Chip8 :=
  { Chip8.new with
      cpu_registers := fun i => if i = 0 then 1 else if i = 1 then 1 else 0 }

/-- C5 witness: the amended theorem instantiated at x = 0, y = 1 with
V0 = V1 = 1 (the spec §8 subtract example: result 0, VF = 1). -/
theorem C5_witness :
    (process_8_command c5_witness_state 5 0 1).1 = none ∧
    (process_8_command c5_witness_state 5 0 1).2.cpu_registers 15 =
      (if c5_witness_state.cpu_registers 1 ≤ c5_witness_state.cpu_registers 0
       then 1 else 0) ∧
    (process_8_command c5_witness_state 5 0 1).2.cpu_registers 0 =
      (c5_witness_state.cpu_registers 0 + 256 - c5_witness_state.cpu_registers 1) % 256 :=
  C5_sub_sets_borrow_flag_and_wrapped_diff c5_witness_state 0 1
    (by decide) (by decide) (by decide) (by decide)

/-! ## C6: add with carry flag (0x8XY4) -/

/-- C6 (amended): for register indices x and y other than 0xF (the flag
register itself), executing `0x8XY4` sets VF to 1 exactly when the
unsigned sum of the pre-instruction VX and VY exceeds 255 and to 0
otherwise, and sets VX to the wrapped sum (mod 256).  The source writes
the carry flag into VF before adding, so when x or y is 0xF the addition
reads the freshly written flag and the claim fails (see the
counterexample). -/
theorem C6_add_sets_carry_flag_and_wrapped_sum (s : Chip8) (x y : Nat)
    (hx : x ≠ 15) (hy : y ≠ 15)
    (hbx : s.cpu_registers x ≤ 255) (hby : s.cpu_registers y ≤ 255) :
    (process_8_command s 4 x y).1 = none ∧
    (process_8_command s 4 x y).2.cpu_registers 15 =
      (if 255 < s.cpu_registers x + s.cpu_registers y then 1 else 0) ∧
    (process_8_command s 4 x y).2.cpu_registers x =
      (s.cpu_registers x + s.cpu_registers y) % 256 := by
  have h1 : (15 : Nat) ≠ x := fun h => hx h.symm
  refine ⟨by norm_num [process_8_command], ?_, ?_⟩
  · simp only [process_8_command]
    norm_num [upd_apply, h1, hx, hy]
    split_ifs <;> omega
  · simp only [process_8_command]
    norm_num [upd_apply, h1, hx, hy]

/-- Register file for the C6 counterexample: V0 = 200, VF = 100. -/
def c6_state : Chip8 :=
  { Chip8.new with
      cpu_registers := fun i => if i = 0 then 200 else if i = 15 then 100 else 0 }

/-- C6 counterexample: with x = 0 and y = 0xF (V0 = 200, VF = 100), the
claim demands V0 := (200 + 100) mod 256 = 44, but the code first stores
the carry flag 1 into VF and then adds the updated VF, leaving V0 = 201. -/
theorem C6_counterexample :
    (process_8_command c6_state 4 0 15).2.cpu_registers 0 = 201 ∧
    (process_8_command c6_state 4 0 15).2.cpu_registers 0 ≠
      (c6_state.cpu_registers 0 + c6_state.cpu_registers 15) % 256 := by
  decide

/-- Register file for the C6 witness: V0 = 0xFF, V1 = 0x02 (spec §8
example). -/
def c6_witness_state : Chip8 :=
  { Chip8.new with
      cpu_registers := fun i => if i = 0 then 0xFF else if i = 1 then 2 else 0 }

/-- C6 witness: the amended theorem instantiated at x = 0, y = 1 with
V0 = 0xFF, V1 = 0x02 (the spec §8 add example: result 0x01, VF = 1). -/
theorem C6_witness :
    (process_8_command c6_witness_state 4 0 1).1 = none ∧
    (process_8_command c6_witness_state 4 0 1).2.cpu_registers 15 =
      (if 255 < c6_witness_state.cpu_registers 0 + c6_witness_state.cpu_registers 1
       then 1 else 0) ∧
    (process_8_command c6_witness_state 4 0 1).2.cpu_registers 0 =
      (c6_witness_state.cpu_registers 0 + c6_witness_state.cpu_registers 1) % 256 :=
  C6_add_sets_carry_flag_and_wrapped_sum c6_witness_state 0 1
    (by decide) (by decide) (by decide) (by decide)

/-! ## C7: call then return -/

/-- C7: from any machine with PC = 0x200 and an empty stack, fetching the
call instruction `0x2EEE` sets PC = 0xEEE, stack pointer = 1 and
stack[1] = 0x200; executing the return instruction `0x00EE` found at
0xEEE on the next cycle sets PC = 0x202 and stack pointer = 0. -/
theorem C7_call_then_return (r1 r2 : Nat) (s : Chip8)
    (hpc : s.program_counter = 0x200) (hsp : s.stack_pointer = 0)
    (h1 : s.memory 0x200 = 0x2E) (h2 : s.memory 0x201 = 0xEE)
    (h3 : s.memory 0xEEE = 0x00) (h4 : s.memory 0xEEF = 0xEE) :
    (emulate_cycle r1 s).1 = none ∧
    (emulate_cycle r1 s).2.program_counter = 0xEEE ∧
    (emulate_cycle r1 s).2.stack_pointer = 1 ∧
    (emulate_cycle r1 s).2.stack 1 = 0x200 ∧
    (emulate_cycle r2 (emulate_cycle r1 s).2).1 = none ∧
    (emulate_cycle r2 (emulate_cycle r1 s).2).2.program_counter = 0x202 ∧
    (emulate_cycle r2 (emulate_cycle r1 s).2).2.stack_pointer = 0 := by
  have e1 : emulate_cycle r1 s =
      (none, update_timers { s with stack_pointer := 1,
                                    stack := upd s.stack 1 0x200,
                                    program_counter := 0xEEE }) := by
    refine emulate_cycle_fetch_ok r1 s 0x2EEE _ (by omega) (by rw [hpc, h1, h2]) ?_
    have hd1 : dispatch r1 s 0x2EEE = process_2_command s 0xEEE := rfl
    rw [hd1]
    norm_num [process_2_command, hsp, hpc]
  have e2 : emulate_cycle r2 (emulate_cycle r1 s).2 =
      (none, update_timers { (emulate_cycle r1 s).2 with
               program_counter := 0x202, stack_pointer := 0 }) := by
    rw [e1]
    refine emulate_cycle_fetch_ok r2 _ 0x00EE _ ?_ ?_ ?_
    · rw [update_timers_pc]; norm_num
    · rw [update_timers_pc, update_timers_memory]
      norm_num [h3, h4]
    · have hd2 : ∀ t : Chip8, dispatch r2 t 0x00EE = return_from_subroutine t :=
        fun t => rfl
      rw [hd2]
      norm_num [return_from_subroutine, update_timers_sp,
                update_timers_stack, update_timers_pc, upd_same]
  refine ⟨by rw [e1], ?_, ?_, ?_, by rw [e2], ?_, ?_⟩
  · rw [e1, update_timers_pc]
  · rw [e1, update_timers_sp]
  · rw [e1, update_timers_stack]; simp [upd_same]
  · rw [e2, update_timers_pc]
  · rw [e2, update_timers_sp]

/-- A concrete machine realising the C7 hypotheses: the fresh machine with
`0x2EEE` loaded at 0x200 and `0x00EE` at 0xEEE. -/
def c7_state : Chip8 :=
  { Chip8.new with
      memory := fun a =>
        if a = 0x200 then 0x2E else if a = 0x201 then 0xEE
        else if a = 0xEEE then 0x00 else if a = 0xEEF then 0xEE else 0 }

/-- C7 witness: the theorem applied to the concrete machine `c7_state`. -/
theorem C7_witness :
    (emulate_cycle 0 c7_state).1 = none ∧
    (emulate_cycle 0 c7_state).2.program_counter = 0xEEE ∧
    (emulate_cycle 0 c7_state).2.stack_pointer = 1 ∧
    (emulate_cycle 0 c7_state).2.stack 1 = 0x200 ∧
    (emulate_cycle 0 (emulate_cycle 0 c7_state).2).1 = none ∧
    (emulate_cycle 0 (emulate_cycle 0 c7_state).2).2.program_counter = 0x202 ∧
    (emulate_cycle 0 (emulate_cycle 0 c7_state).2).2.stack_pointer = 0 :=
  C7_call_then_return 0 0 c7_state
    (by decide) (by decide) (by decide) (by decide) (by decide) (by decide)

/-! ## C4: load_program -/

/-- The copy loop never touches addresses below its write window. -/
theorem load_program_loop_untouched (buf : List Nat) (i : Nat) (mem : Nat → Nat)
    (a : Nat) (ha : a < i + 512) :
    (load_program_loop buf i mem).2 a = mem a := by
  induction buf generalizing i mem with
  | nil => rfl
  | cons b rest ih =>
    simp only [load_program_loop]
    split
    · rw [ih (i + 1) _ (by omega)]
      exact upd_other _ _ _ _ (by omega)
    · rfl

/-- When the image fits, the copy loop returns normally and afterwards each
copied cell holds the corresponding program byte. -/
theorem load_program_loop_ok (buf : List Nat) (i : Nat) (mem : Nat → Nat)
    (h : buf.length + i + 512 ≤ 4096) :
    (load_program_loop buf i mem).1 = none ∧
    ∀ k, k < buf.length →
      (load_program_loop buf i mem).2 (i + 512 + k) = buf.getD k 0 := by
  induction buf generalizing i mem with
  | nil => exact ⟨rfl, fun k hk => by simp at hk⟩
  | cons b rest ih =>
    simp only [List.length_cons] at h
    have hg : i + 512 < 4096 := by omega
    obtain ⟨ih1, ih2⟩ := ih (i + 1) (upd mem (i + 512) b) (by omega)
    simp only [load_program_loop, if_pos hg]
    refine ⟨ih1, ?_⟩
    intro k hk
    cases k with
    | zero =>
      rw [Nat.add_zero, load_program_loop_untouched _ _ _ _ (by omega)]
      simp [upd_same]
    | succ k' =>
      have hidx : i + 512 + (k' + 1) = i + 1 + 512 + k' := by omega
      rw [hidx, ih2 k' (by simp at hk; omega)]
      simp

/-- When the image does not fit, the copy loop hits the out-of-bounds
store and panics. -/
theorem load_program_loop_too_large (buf : List Nat) (i : Nat) (mem : Nat → Nat)
    (h : buf.length + i + 512 > 4096) (hne : buf ≠ []) :
    (load_program_loop buf i mem).1 = some Fault.nativePanic := by
  induction buf generalizing i mem with
  | nil => exact absurd rfl hne
  | cons b rest ih =>
    simp only [List.length_cons] at h
    simp only [load_program_loop]
    split
    · rename_i hg
      cases rest with
      | nil => simp at h; omega
      | cons c rest2 =>
        exact ih (i + 1) (upd mem (i + 512) b) (by simp at h ⊢; omega) (by simp)
    · rfl

/-- C4: `load_program(bytes)` copies `bytes` verbatim into memory starting
at offset 0x200 when `bytes.len() + 0x200 ≤ 4096` (so reading the copied
window returns the bytes unchanged), and fails when
`bytes.len() + 0x200 > 4096` — however the failure is an out-of-bounds
panic in the copy loop (after the in-range prefix has already been
written), not a returned `ProgramTooLarge` error: no such error value
exists in the code. -/
theorem C4_load_program_copies_or_panics (s : Chip8) (bytes : List Nat) :
    (bytes.length + 0x200 ≤ 4096 →
      (load_program s bytes).1 = none ∧
      ∀ k, k < bytes.length →
        (load_program s bytes).2.memory (0x200 + k) = bytes.getD k 0) ∧
    (bytes.length + 0x200 > 4096 →
      (load_program s bytes).1 = some Fault.nativePanic) := by
  constructor
  · intro h
    obtain ⟨h1, h2⟩ := load_program_loop_ok bytes 0 s.memory (by omega)
    refine ⟨h1, fun k hk => ?_⟩
    have := h2 k hk
    simpa [load_program] using this
  · intro h
    have hne : bytes ≠ [] := by
      intro he
      subst he
      simp at h
    exact load_program_loop_too_large bytes 0 s.memory (by omega) hne

/-- C4 witness: a 3-byte program round-trips through memory at 0x200, and
a 3585-byte program (3585 + 0x200 = 4097 > 4096) makes `load_program`
panic. -/
theorem C4_witness :
    (load_program Chip8.new [1, 2, 3]).1 = none ∧
    (load_program Chip8.new [1, 2, 3]).2.memory (0x200 + 1) = 2 ∧
    (load_program Chip8.new (List.replicate 3585 7)).1 = some Fault.nativePanic := by
  refine ⟨((C4_load_program_copies_or_panics Chip8.new [1, 2, 3]).1 (by decide)).1,
          ?_, ?_⟩
  · have := ((C4_load_program_copies_or_panics Chip8.new [1, 2, 3]).1 (by decide)).2
      1 (by decide)
    simpa using this
  · exact (C4_load_program_copies_or_panics Chip8.new (List.replicate 3585 7)).2
      (by norm_num [List.length_replicate])

/-! ## C10: bulk register transfer leaves I unchanged -/

/-- C10: executing the bulk register store `0xFX55` or bulk register load
`0xFX65` leaves the index register I unchanged — the code performs no
post-increment of I by x + 1 (and preserves I even if the transfer loop
panics out of bounds part-way). -/
theorem C10_bulk_transfer_preserves_index (rnd : Nat) (s : Chip8)
    (hfam : (s.memory s.program_counter * 256 + s.memory (s.program_counter + 1))
        / 4096 % 16 = 15)
    (hlow : (s.memory s.program_counter * 256 + s.memory (s.program_counter + 1))
        % 256 = 0x55 ∨
      (s.memory s.program_counter * 256 + s.memory (s.program_counter + 1))
        % 256 = 0x65) :
    (emulate_cycle rnd s).2.index_register = s.index_register := by
  have hdisp : (dispatch rnd s (s.memory s.program_counter * 256 +
      s.memory (s.program_counter + 1))).2.index_register = s.index_register := by
    have hf : dispatch rnd s (s.memory s.program_counter * 256 +
        s.memory (s.program_counter + 1)) =
      process_f_command s
        (s.memory s.program_counter * 256 + s.memory (s.program_counter + 1))
        ((s.memory s.program_counter * 256 + s.memory (s.program_counter + 1)) / 256 % 16)
        ((s.memory s.program_counter * 256 + s.memory (s.program_counter + 1)) % 256) := by
      simp only [dispatch]
      rw [hfam]
    rw [hf]
    rcases hlow with h | h <;> rw [h] <;>
    · unfold process_f_command
      split <;>
        first
          | rfl
          | omega
          | (simp only []; split <;> rfl)
  refine emulate_cycle_cases rnd s
    (fun r => r.2.index_register = s.index_register) rfl ?_ ?_
  · intro s1 hd
    rw [hd] at hdisp
    simpa [update_timers_index] using hdisp
  · intro f s1 hd
    rw [hd] at hdisp
    exact hdisp

/-- Machine for the C10 witness: opcode 0xF155 at 0x200, I = 0x300. -/
def c10_state : Chip8 :=
  { Chip8.new with
      index_register := 0x300,
      memory := fun a => if a = 0x200 then 0xF1 else if a = 0x201 then 0x55 else 0 }

/-- C10 witness: the theorem applied to a machine about to execute
0xF155. -/
theorem C10_witness :
    (emulate_cycle 0 c10_state).2.index_register = c10_state.index_register :=
  C10_bulk_transfer_preserves_index 0 c10_state (by decide) (Or.inl (by decide))

/-! ## C9: instruction execution never touches key state -/

theorem return_from_subroutine_keys (s : Chip8) :
    (return_from_subroutine s).2.keys = s.keys := by
  simp only [return_from_subroutine]
  split_ifs <;> rfl

theorem process_2_command_keys (s : Chip8) (nnn : Nat) :
    (process_2_command s nnn).2.keys = s.keys := by
  simp only [process_2_command]
  split_ifs <;> rfl

theorem process_8_command_keys (s : Chip8) (oper x y : Nat) :
    (process_8_command s oper x y).2.keys = s.keys := by
  unfold process_8_command
  split <;> rfl

theorem process_ex9e_command_keys (s : Chip8) (x : Nat) :
    (process_ex9e_command s x).2.keys = s.keys := by
  simp only [process_ex9e_command]
  split_ifs <;> rfl

theorem process_exa1_command_keys (s : Chip8) (x : Nat) :
    (process_exa1_command s x).2.keys = s.keys := by
  simp only [process_exa1_command]
  split_ifs <;> rfl

theorem draw_sprite_keys (s : Chip8) (x y n : Nat) :
    (draw_sprite s x y n).2.keys = s.keys := by
  simp only [draw_sprite]
  split <;> rfl

theorem process_f_command_keys (s : Chip8) (op x nn : Nat) :
    (process_f_command s op x nn).2.keys = s.keys := by
  unfold process_f_command
  split <;> simp only [] <;>
    first | rfl | (split <;> rfl) | (split_ifs <;> rfl)

/-- No arm of the dispatch writes the key array. -/
theorem dispatch_keys (rnd : Nat) (s : Chip8) (op : Nat) :
    (dispatch rnd s op).2.keys = s.keys := by
  simp only [dispatch]
  split <;>
    first
      | rfl
      | exact process_2_command_keys s _
      | exact process_8_command_keys s _ _ _
      | exact draw_sprite_keys s _ _ _
      | exact process_f_command_keys s _ _ _
      | (split <;>
          first
            | rfl
            | exact return_from_subroutine_keys s
            | exact process_ex9e_command_keys s _
            | exact process_exa1_command_keys s _)

/-- C9: whenever a `step()` call completes without a fault, the 16-entry
key state array afterwards is identical to its value before the call — no
instruction reads-modifies or writes key state (only the host-facing
`set_keys` replaces it).  In fact no faulting path touches it either. -/
theorem C9_cycle_preserves_keys (rnd : Nat) (s : Chip8)
    (h : (emulate_cycle rnd s).1 = none) :
    (emulate_cycle rnd s).2.keys = s.keys := by
  refine emulate_cycle_cases rnd s
    (fun r => r.1 = none → r.2.keys = s.keys) ?_ ?_ ?_ h
  · intro h'
    simp at h'
  · intro s1 hd _
    have hk := dispatch_keys rnd s
      (s.memory s.program_counter * 256 + s.memory (s.program_counter + 1))
    rw [hd] at hk
    simpa [update_timers_keys] using hk
  · intro f s1 hd h'
    simp at h'

/-- Machine for the C9 witness: a jump instruction at 0x200 and one key
pressed. -/
def c9_state : Chip8 :=
  { Chip8.new with
      keys := fun i => if i = 4 then 1 else 0,
      memory := fun a => if a = 0x200 then 0x13 else if a = 0x201 then 0x00 else 0 }

/-- C9 witness: the theorem applied to a machine successfully stepping a
jump instruction. -/
theorem C9_witness : (emulate_cycle 0 c9_state).2.keys = c9_state.keys :=
  C9_cycle_preserves_keys 0 c9_state (by decide)

/-! ## C3: unrecognized opcodes -/

set_option maxHeartbeats 1600000 in
/-- A word outside the recognized table reaches a panic arm of the
dispatch before any state mutation: the result carries the state
untouched and the payload the source would interpolate into the panic
message. -/
theorem dispatch_unknown (rnd : Nat) (s : Chip8) (op : Nat)
    (h : recognized_op op = false) :
    dispatch rnd s op = (some (Fault.unknownOpcode (unknown_payload op)), s) := by
  unfold recognized_op at h
  unfold dispatch unknown_payload process_8_command process_f_command
  split at h <;> split <;> (try omega) <;>
    first
      | (split at h <;> (try omega) <;> (try split) <;> (try omega) <;> simp_all)
      | simp_all

/-- C3: for every machine state whose fetched word matches no recognized
instruction pattern, the source does not return an `InvalidOpcode{opcode,
pc}` error — it panics.  The panic happens before any mutation, so the
machine state (in particular the program counter) is exactly as before
the cycle, and the panic message carries `unknown_payload op`: the full
opcode for most families but only the operator nibble for the
`0x8XYN` family, and never the program counter. -/
theorem C3_unknown_opcode_panics (rnd : Nat) (s : Chip8)
    (hpc : s.program_counter + 1 < 4096)
    (hun : recognized_op (s.memory s.program_counter * 256 +
      s.memory (s.program_counter + 1)) = false) :
    emulate_cycle rnd s =
      (some (Fault.unknownOpcode (unknown_payload
        (s.memory s.program_counter * 256 + s.memory (s.program_counter + 1)))), s) :=
  emulate_cycle_fetch_fault rnd s _ _ _ hpc rfl (dispatch_unknown rnd s _ hun)

/-- Machine for the C3 witness: the unrecognized word 0x8018 at 0x200
(an `0x8XYN` instruction with nonexistent operator 8). -/
def c3_state : Chip8 :=
  { Chip8.new with
      memory := fun a => if a = 0x200 then 0x80 else if a = 0x201 then 0x18 else 0 }

/-- C3 witness: stepping the machine facing the unrecognized word 0x8018
panics with payload 8 (the operator nibble — not the full opcode 0x8018,
and without the program counter) and leaves the state untouched. -/
theorem C3_witness :
    emulate_cycle 0 c3_state = (some (Fault.unknownOpcode 8), c3_state) := by
  have h := C3_unknown_opcode_panics 0 c3_state (by decide) (by decide)
  rwa [(by decide : unknown_payload (c3_state.memory c3_state.program_counter * 256 +
    c3_state.memory (c3_state.program_counter + 1)) = 8)] at h

/-! ## C8: double draw

The draw loop is analysed through the flat sequence of display-cell
indices it toggles: `row_idx` collects the target cells of one sprite row
(in x_line order) and `idx_list` concatenates the rows, so that the nested
loop equals a single left fold of `drawPixel` over `idx_list`. -/

/-- The display cells toggled by one sprite row byte, in loop order. -/
def row_idx (pixel x y y_line : Nat) : List Nat :=
  (List.range 8).filterMap (fun x_line =>
    if pixel &&& (0x80 >>> x_line) ≠ 0 then
      some ((x + x_line + (y + y_line) * 64) % 2048)
    else none)

/-- The display cells toggled by the whole sprite, in loop order. -/
def idx_list (mem : Nat → Nat) (i x y : Nat) : Nat → List Nat
  | 0 => []
  | n + 1 => idx_list mem i x y n ++ row_idx (mem (i + n)) x y n

/-- Folding the pixel blit over a flat list of cell indices. -/
def draw_seq (L : List Nat) (gv : (Nat → Nat) × Nat) : (Nat → Nat) × Nat :=
  L.foldl drawPixel gv

theorem draw_seq_append (L1 L2 : List Nat) (gv : (Nat → Nat) × Nat) :
    draw_seq (L1 ++ L2) gv = draw_seq L2 (draw_seq L1 gv) :=
  List.foldl_append ..

/-- The inner loop of the draw equals the fold over its row indices. -/
theorem draw_row_eq_seq (pixel x y y_line : Nat) (gv : (Nat → Nat) × Nat) :
    draw_row pixel x y y_line gv = draw_seq (row_idx pixel x y y_line) gv := by
  have key : ∀ (xs : List Nat) (gv : (Nat → Nat) × Nat),
      xs.foldl (fun gv x_line =>
        if pixel &&& (0x80 >>> x_line) ≠ 0 then
          drawPixel gv ((x + x_line + (y + y_line) * 64) % 2048)
        else gv) gv =
      draw_seq (xs.filterMap (fun x_line =>
        if pixel &&& (0x80 >>> x_line) ≠ 0 then
          some ((x + x_line + (y + y_line) * 64) % 2048)
        else none)) gv := by
    intro xs
    induction xs with
    | nil => intro gv; rfl
    | cons a t ih =>
      intro gv
      rw [List.foldl_cons, List.filterMap_cons]
      by_cases hg : pixel &&& (0x80 >>> a) ≠ 0
      · rw [if_pos hg, if_pos hg]
        exact ih _
      · rw [if_neg hg, if_neg hg]
        exact ih _
  exact key (List.range 8) gv

/-- The outer loop of the draw, when every sprite byte read is in bounds,
returns normally with the fold over the whole index list. -/
theorem draw_rows_range_append (mem : Nat → Nat) (i x y : Nat) (n : Nat)
    (l2 : List Nat) (gv : (Nat → Nat) × Nat)
    (hb : ∀ yl, yl < n → i + yl < 4096) :
    draw_rows mem i x y (List.range n ++ l2) gv =
      draw_rows mem i x y l2 (draw_seq (idx_list mem i x y n) gv) := by
  induction n generalizing l2 gv with
  | zero => simp [idx_list, draw_seq]
  | succ m ihm =>
    rw [List.range_succ, List.append_assoc,
        ihm ([m] ++ l2) gv (fun yl h => hb yl (by omega))]
    simp only [List.cons_append, List.nil_append, draw_rows]
    rw [if_pos (hb m (by omega)), draw_row_eq_seq,
        show idx_list mem i x y (m + 1) =
          idx_list mem i x y m ++ row_idx (mem (i + m)) x y m from rfl,
        draw_seq_append]
    rfl

theorem draw_rows_ok (mem : Nat → Nat) (i x y : Nat) (n : Nat)
    (gv : (Nat → Nat) × Nat) (hb : ∀ yl, yl < n → i + yl < 4096) :
    draw_rows mem i x y (List.range n) gv =
      (none, draw_seq (idx_list mem i x y n) gv) := by
  have h := draw_rows_range_append mem i x y n [] gv hb
  simpa using h

/-- The display after a fold: each cell is XORed with the parity of the
number of times its index occurs in the list. -/
theorem draw_seq_gfx (L : List Nat) (gv : (Nat → Nat) × Nat) (j : Nat) :
    (draw_seq L gv).1 j = gv.1 j ^^^ (L.count j % 2) := by
  induction L generalizing gv with
  | nil => simp [draw_seq]
  | cons a t ih =>
    rw [show draw_seq (a :: t) gv = draw_seq t (drawPixel gv a) from rfl, ih]
    by_cases hj : j = a
    · subst hj
      simp only [drawPixel, upd_same, List.count_cons_self]
      rw [Nat.xor_assoc]
      congr 1
      rcases Nat.mod_two_eq_zero_or_one (t.count j) with h | h <;> rw [h]
      · rw [Nat.xor_zero]; omega
      · rw [(by decide : (1 : Nat) ^^^ 1 = 0)]; omega
    · have : (a :: t).count j = t.count j := by
        simp [List.count_cons, hj]
      rw [this]
      simp [drawPixel, upd_apply, hj]

/-- Toggling the same index list twice restores every display cell. -/
theorem draw_seq_twice_gfx (L : List Nat) (g : Nat → Nat) (v1 v2 : Nat) (j : Nat) :
    (draw_seq L ((draw_seq L (g, v1)).1, v2)).1 j = g j := by
  rw [draw_seq_gfx, draw_seq_gfx]
  exact Nat.xor_cancel_right _ _

open Classical in
/-- The collision flag after a fold over distinct cell indices: it ends 1
exactly when some listed cell already held 1 when the fold started
(distinctness means no cell is examined after having been toggled). -/
theorem draw_seq_vf (L : List Nat) (hnd : L.Nodup) (g : Nat → Nat) (v : Nat) :
    (draw_seq L (g, v)).2 = if ∃ j ∈ L, g j = 1 then 1 else v := by
  induction L generalizing g v with
  | nil => simp [draw_seq]
  | cons a t ih =>
    obtain ⟨ha, ht⟩ := List.nodup_cons.mp hnd
    rw [show draw_seq (a :: t) (g, v) =
      draw_seq t (upd g a (g a ^^^ 1), if g a = 1 then 1 else v) from rfl]
    rw [ih ht]
    have hsame : (∃ j ∈ t, upd g a (g a ^^^ 1) j = 1) ↔ ∃ j ∈ t, g j = 1 := by
      constructor
      · rintro ⟨j, hj, hg⟩
        exact ⟨j, hj,
          by rwa [upd_other _ _ _ _ (fun he => ha (by rw [← he]; exact hj))] at hg⟩
      · rintro ⟨j, hj, hg⟩
        exact ⟨j, hj,
          by rwa [upd_other _ _ _ _ (fun he => ha (by rw [← he]; exact hj))]⟩
    by_cases h1 : ∃ j ∈ t, g j = 1 <;> by_cases h2 : g a = 1 <;>
      simp [hsame, h1, h2, List.mem_cons]

/-- The collision flag of the second of two identical draws over distinct
cells, with a 0–1 valued starting display: it is 1 exactly when the first
draw turned some cell on. -/
theorem draw_seq_double_vf (L : List Nat) (hnd : L.Nodup) (g : Nat → Nat)
    (hbit : ∀ j, g j ≤ 1) :
    ((draw_seq L ((draw_seq L (g, 0)).1, 0)).2 = 1 ↔
      ∃ j, g j = 0 ∧ (draw_seq L (g, 0)).1 j = 1) := by
  rw [draw_seq_vf L hnd]
  constructor
  · intro h
    by_cases hc : ∃ j ∈ L, (draw_seq L (g, 0)).1 j = 1
    · obtain ⟨j, hj, hg1⟩ := hc
      refine ⟨j, ?_, hg1⟩
      have hcnt : L.count j = 1 := List.count_eq_one_of_mem hnd hj
      rw [draw_seq_gfx, hcnt] at hg1
      have hg2 : g j ^^^ 1 = 1 := by simpa using hg1
      have hb := hbit j
      have h01 : g j = 0 ∨ g j = 1 := by omega
      rcases h01 with h0 | h1
      · exact h0
      · rw [h1] at hg2
        exact absurd hg2 (by decide)
    · rw [if_neg hc] at h
      exact absurd h (by norm_num)
  · rintro ⟨j, hg0, hg1⟩
    have hj : j ∈ L := by
      by_contra hnj
      have hcnt : L.count j = 0 := List.count_eq_zero.mpr hnj
      rw [draw_seq_gfx, hcnt] at hg1
      have hg2 : g j = 1 := by simpa using hg1
      omega
    rw [if_pos ⟨j, hj, hg1⟩]

/-- A set sprite bit forces the bit position below 8: for `x_line ≥ 8` the
mask `0x80 >> x_line` is zero. -/
theorem shift_guard_lt {pixel xl : Nat} (h : pixel &&& (0x80 >>> xl) ≠ 0) :
    xl < 8 := by
  by_contra hge
  push_neg at hge
  have hz : (0x80 >>> xl) = 0 := by
    rw [Nat.shiftRight_eq_div_pow]
    exact Nat.div_eq_of_lt (lt_of_lt_of_le (by norm_num)
      (Nat.pow_le_pow_right (by norm_num) hge))
  rw [hz, Nat.and_zero] at h
  exact h rfl

theorem opt_guard_mem {p : Prop} [Decidable p] {v b : Nat}
    (h : b ∈ (if p then some v else none)) : p ∧ b = v := by
  split at h
  · simp only [Option.mem_def, Option.some.injEq] at h
    exact ⟨‹p›, h.symm⟩
  · cases h

theorem row_idx_mem {pixel x y y_line c : Nat}
    (h : c ∈ row_idx pixel x y y_line) :
    ∃ xl, xl < 8 ∧ c = (x + xl + (y + y_line) * 64) % 2048 := by
  simp only [row_idx, List.mem_filterMap, List.mem_range] at h
  obtain ⟨xl, hxl, hsome⟩ := h
  obtain ⟨_, he⟩ := opt_guard_mem (Option.mem_def.mpr hsome)
  exact ⟨xl, hxl, he⟩

theorem idx_list_mem {mem : Nat → Nat} {i x y n c : Nat}
    (h : c ∈ idx_list mem i x y n) :
    ∃ y1 x1, y1 < n ∧ x1 < 8 ∧ c = (x + x1 + (y + y1) * 64) % 2048 := by
  induction n with
  | zero => cases h
  | succ m ih =>
    rw [show idx_list mem i x y (m + 1) =
      idx_list mem i x y m ++ row_idx (mem (i + m)) x y m from rfl,
      List.mem_append] at h
    rcases h with h | h
    · obtain ⟨y1, x1, h1, h2, h3⟩ := ih h
      exact ⟨y1, x1, by omega, h2, h3⟩
    · obtain ⟨x1, h1, h2⟩ := row_idx_mem h
      exact ⟨m, x1, by omega, h1, h2⟩

/-- Within one sprite row, all toggled cell indices are distinct. -/
theorem row_idx_nodup (pixel x y y_line : Nat) :
    (row_idx pixel x y y_line).Nodup := by
  refine List.Nodup.filterMap ?_ (List.nodup_range _)
  intro a a' b hb hb'
  obtain ⟨hg, he⟩ := opt_guard_mem hb
  obtain ⟨hg', he'⟩ := opt_guard_mem hb'
  have h1 := shift_guard_lt hg
  have h2 := shift_guard_lt hg'
  omega

/-- Across a whole sprite of height at most 16, all toggled cell indices
are distinct: rows are 64 cells apart and a row toggles cells at most 7
apart, so no two loop iterations hit the same cell modulo 2048. -/
theorem idx_list_nodup (mem : Nat → Nat) (i x y : Nat) (n : Nat) :
    n ≤ 16 → (idx_list mem i x y n).Nodup := by
  induction n with
  | zero => intro _; exact List.nodup_nil
  | succ m ih =>
    intro hn
    refine List.Nodup.append (ih (by omega)) (row_idx_nodup _ _ _ _) ?_
    intro c hc1 hc2
    obtain ⟨y1, x1, hy1, hx1, he1⟩ := idx_list_mem hc1
    obtain ⟨x2, hx2, he2⟩ := row_idx_mem hc2
    omega

/-- Decoding the `0xDXYN` word assembled from its operand fields. -/
theorem dxyn_decode (vx vy n : Nat) (hvx : vx < 16) (hvy : vy < 16)
    (hn : n < 16) :
    ((0xD0 + vx) * 256 + (vy * 16 + n)) / 4096 % 16 = 0xD ∧
    ((0xD0 + vx) * 256 + (vy * 16 + n)) / 256 % 16 = vx ∧
    ((0xD0 + vx) * 256 + (vy * 16 + n)) / 16 % 16 = vy ∧
    ((0xD0 + vx) * 256 + (vy * 16 + n)) % 16 = n := by
  refine ⟨?_, ?_, ?_, ?_⟩ <;> omega

/-- The dispatch of a `0xDXYN` word is the draw arm on its fields. -/
theorem dispatch_dxyn (rnd : Nat) (s : Chip8) (vx vy n : Nat)
    (hvx : vx < 16) (hvy : vy < 16) (hn : n < 16) :
    dispatch rnd s ((0xD0 + vx) * 256 + (vy * 16 + n)) =
      draw_sprite s vx vy n := by
  obtain ⟨h13, hx, hy, hnn⟩ := dxyn_decode vx vy n hvx hvy hn
  simp only [dispatch]
  rw [h13, hx, hy, hnn]

/-- Evaluation of the draw arm when every sprite-byte read is in bounds:
a normal return with the display and VF given by the fold over the
sprite's cell index list, the draw flag set and PC advanced by 2. -/
theorem draw_sprite_ok (s : Chip8) (vx vy n : Nat)
    (hIb : ∀ yl, yl < n → s.index_register + yl < 4096) :
    draw_sprite s vx vy n =
      (none,
        { s with
            gfx := (draw_seq (idx_list s.memory s.index_register
              (s.cpu_registers vx) (s.cpu_registers vy) n) (s.gfx, 0)).1,
            cpu_registers := upd s.cpu_registers 15
              (draw_seq (idx_list s.memory s.index_register
                (s.cpu_registers vx) (s.cpu_registers vy) n) (s.gfx, 0)).2,
            draw_flag := true,
            program_counter := s.program_counter + 2 }) := by
  simp only [draw_sprite]
  rw [draw_rows_ok _ _ _ _ _ _ hIb]

/-- C8: executing the same draw instruction `0xDXYN` twice in a row, with
unchanged VX, VY, I and sprite memory, restores the display buffer to its
content from before the first draw, and VF after the second draw is 1
exactly when the first draw turned at least one pixel on.  The identical
instruction word sits at PC and at PC + 2, its `n` sprite-byte reads are
in bounds, the display holds only 0/1 cells (the machine invariant), and
the registers VX and VY are unchanged by the first draw — the stated
claim proviso, automatic whenever vx and vy are not 0xF since the draw
writes no register but VF.  I and the sprite memory are unchanged by
construction: the draw arm writes neither. -/
theorem C8_double_draw_restores_display (rnd1 rnd2 : Nat) (s : Chip8)
    (vx vy n : Nat)
    (hvx : vx < 16) (hvy : vy < 16) (hn : n < 16)
    (hpc : s.program_counter + 3 < 4096)
    (hm0 : s.memory s.program_counter = 0xD0 + vx)
    (hm1 : s.memory (s.program_counter + 1) = vy * 16 + n)
    (hm2 : s.memory (s.program_counter + 2) = 0xD0 + vx)
    (hm3 : s.memory (s.program_counter + 3) = vy * 16 + n)
    (hIb : ∀ yl, yl < n → s.index_register + yl < 4096)
    (hbit : ∀ j, s.gfx j ≤ 1)
    (hkx : (emulate_cycle rnd1 s).2.cpu_registers vx = s.cpu_registers vx)
    (hky : (emulate_cycle rnd1 s).2.cpu_registers vy = s.cpu_registers vy) :
    (emulate_cycle rnd1 s).1 = none ∧
    (emulate_cycle rnd2 (emulate_cycle rnd1 s).2).1 = none ∧
    (∀ j, (emulate_cycle rnd2 (emulate_cycle rnd1 s).2).2.gfx j = s.gfx j) ∧
    ((emulate_cycle rnd2 (emulate_cycle rnd1 s).2).2.cpu_registers 15 = 1 ↔
      ∃ j, s.gfx j = 0 ∧ (emulate_cycle rnd1 s).2.gfx j = 1) := by
  have e1 : emulate_cycle rnd1 s =
      (none, update_timers
        { s with
            gfx := (draw_seq (idx_list s.memory s.index_register
              (s.cpu_registers vx) (s.cpu_registers vy) n) (s.gfx, 0)).1,
            cpu_registers := upd s.cpu_registers 15
              (draw_seq (idx_list s.memory s.index_register
                (s.cpu_registers vx) (s.cpu_registers vy) n) (s.gfx, 0)).2,
            draw_flag := true,
            program_counter := s.program_counter + 2 }) :=
    emulate_cycle_fetch_ok rnd1 s ((0xD0 + vx) * 256 + (vy * 16 + n)) _
      (by omega) (by rw [hm0, hm1])
      ((dispatch_dxyn rnd1 s vx vy n hvx hvy hn).trans
        (draw_sprite_ok s vx vy n hIb))
  have hS1 : (emulate_cycle rnd1 s).2 = update_timers
      { s with
          gfx := (draw_seq (idx_list s.memory s.index_register
            (s.cpu_registers vx) (s.cpu_registers vy) n) (s.gfx, 0)).1,
          cpu_registers := upd s.cpu_registers 15
            (draw_seq (idx_list s.memory s.index_register
              (s.cpu_registers vx) (s.cpu_registers vy) n) (s.gfx, 0)).2,
          draw_flag := true,
          program_counter := s.program_counter + 2 } := by
    rw [e1]
  have hS1mem : (emulate_cycle rnd1 s).2.memory = s.memory := by
    rw [hS1, update_timers_memory]
  have hS1pc : (emulate_cycle rnd1 s).2.program_counter =
      s.program_counter + 2 := by
    rw [hS1, update_timers_pc]
  have hS1idx : (emulate_cycle rnd1 s).2.index_register = s.index_register := by
    rw [hS1, update_timers_index]
  have hS1gfx : (emulate_cycle rnd1 s).2.gfx =
      (draw_seq (idx_list s.memory s.index_register
        (s.cpu_registers vx) (s.cpu_registers vy) n) (s.gfx, 0)).1 := by
    rw [hS1, update_timers_gfx]
  have e2 : emulate_cycle rnd2 (emulate_cycle rnd1 s).2 =
      (none, update_timers
        { (emulate_cycle rnd1 s).2 with
            gfx := (draw_seq (idx_list
              (emulate_cycle rnd1 s).2.memory
              (emulate_cycle rnd1 s).2.index_register
              ((emulate_cycle rnd1 s).2.cpu_registers vx)
              ((emulate_cycle rnd1 s).2.cpu_registers vy) n)
              ((emulate_cycle rnd1 s).2.gfx, 0)).1,
            cpu_registers := upd (emulate_cycle rnd1 s).2.cpu_registers 15
              (draw_seq (idx_list
                (emulate_cycle rnd1 s).2.memory
                (emulate_cycle rnd1 s).2.index_register
                ((emulate_cycle rnd1 s).2.cpu_registers vx)
                ((emulate_cycle rnd1 s).2.cpu_registers vy) n)
                ((emulate_cycle rnd1 s).2.gfx, 0)).2,
            draw_flag := true,
            program_counter := (emulate_cycle rnd1 s).2.program_counter + 2 }) := by
    refine emulate_cycle_fetch_ok rnd2 _ ((0xD0 + vx) * 256 + (vy * 16 + n)) _
      ?_ ?_ ?_
    · rw [hS1pc]; omega
    · rw [hS1pc, hS1mem]
      rw [show s.program_counter + 2 + 1 = s.program_counter + 3 by omega]
      rw [hm2, hm3]
    · exact (dispatch_dxyn rnd2 _ vx vy n hvx hvy hn).trans
        (draw_sprite_ok _ vx vy n (by rw [hS1idx]; exact hIb))
  have hL2 : idx_list (emulate_cycle rnd1 s).2.memory
      (emulate_cycle rnd1 s).2.index_register
      ((emulate_cycle rnd1 s).2.cpu_registers vx)
      ((emulate_cycle rnd1 s).2.cpu_registers vy) n =
      idx_list s.memory s.index_register
        (s.cpu_registers vx) (s.cpu_registers vy) n := by
    rw [hS1mem, hS1idx, hkx, hky]
  have hnd : (idx_list s.memory s.index_register
      (s.cpu_registers vx) (s.cpu_registers vy) n).Nodup :=
    idx_list_nodup _ _ _ _ n (by omega)
  refine ⟨by rw [e1], by rw [e2], ?_, ?_⟩
  · intro j
    rw [e2]
    simp only [update_timers_gfx]
    rw [hL2, hS1gfx]
    exact draw_seq_twice_gfx _ _ _ _ j
  · rw [e2]
    simp only [update_timers_regs]
    rw [upd_same, hL2, hS1gfx]
    exact draw_seq_double_vf _ hnd s.gfx hbit

/-- Machine for the C8 witness: opcode 0xD011 (draw 1-row sprite at
(V0, V1) = (0, 0)) at both 0x200 and 0x202, sprite byte 0x80 at
I = 0x300, display all off. -/
def c8_state : Chip8 :=
  { Chip8.new with
      index_register := 0x300,
      memory := fun a =>
        if a = 0x200 then 0xD0 else if a = 0x201 then 0x11
        else if a = 0x202 then 0xD0 else if a = 0x203 then 0x11
        else if a = 0x300 then 0x80 else 0 }

/-- C8 witness: the theorem applied to `c8_state` with vx = 0, vy = 1,
n = 1. -/
theorem C8_witness :
    (emulate_cycle 0 c8_state).1 = none ∧
    (emulate_cycle 0 (emulate_cycle 0 c8_state).2).1 = none ∧
    (∀ j, (emulate_cycle 0 (emulate_cycle 0 c8_state).2).2.gfx j = c8_state.gfx j) ∧
    ((emulate_cycle 0 (emulate_cycle 0 c8_state).2).2.cpu_registers 15 = 1 ↔
      ∃ j, c8_state.gfx j = 0 ∧ (emulate_cycle 0 c8_state).2.gfx j = 1) :=
  C8_double_draw_restores_display 0 0 c8_state 0 1 1
    (by decide) (by decide) (by decide) (by decide)
    (by decide) (by decide) (by decide) (by decide)
    (by intro yl h; have h0 : c8_state.index_register = 0x300 := rfl; omega)
    (fun j => Nat.zero_le 1)
    (by decide) (by decide)

end Chip8Emu
